import Mathlib

/-!
Verification of the graceful-stop decision core of the runner controller
(`controllers/runner_graceful_stop.go`).

The Go code is shallowly embedded as follows.

* External collaborators (the GitHub registry client, the Kubernetes patch
  client, and the Go standard library's clock and RFC3339 parser/formatter)
  are abstracted as an environment `Env` of deterministic oracles; every
  theorem quantifies over the environment, so the results hold for every
  behaviour of the collaborators.
* Every outward call (annotation patch, runner-removal call, runner-list
  query) is recorded in an effect trace so that frame/effect claims are
  statable.
* Machine integers (`int64`, `time.Duration` in nanoseconds, HTTP status
  codes) are modelled as `Int`; `strconv.ParseInt`'s 64-bit range check is
  kept explicit.
* Fallible operations return `Option`/paired error values exactly where the
  Go returns `(..., error)`.
* The one run-time panic the core can hit — `getAnnotation` called with a
  typed-nil `*corev1.Pod` at line 75, whose promoted `GetAnnotations`
  dereferences the nil embedding pointer — is modelled as an explicit
  `none` outcome (`getAnnotationObj`, `ensureRunnerUnregistrationObj`,
  and the tick, which propagates it).

Functions of the repository that are referenced by the core but whose
definitions are not part of `src/` (the annotation key constants, the two
backoff constants, `runnerPodOrContainerIsStopped`, and
`runnerContainerExitCode`) are modelled from the specification; each such
definition carries a doc comment starting with `Modelled from the spec:`.
-/

namespace ARC

/-- Errors surfaced by the external collaborators, mirroring the error
values the Go code distinguishes: `gogithub.RateLimitError` (matched with
`errors.Is`), `gogithub.ErrorResponse` carrying an HTTP status (matched
with `errors.As`), `strconv.ParseInt` failures, `time.Parse` failures, and
arbitrary other errors. -/
inductive GoError where
  | rateLimit
  | apiError (status : Int)
  | parseIntError (s : String)
  | parseTimeError (s : String)
  | other (s : String)
  deriving DecidableEq

/-- Embeds `errors.Is(err, &gogithub.RateLimitError{})` from line 86. -/
def GoError.isRateLimit : GoError → Bool
  | GoError.rateLimit => true
  | _ => false

/-- Embeds `errors.As(err, &errRes)` for `errRes *gogithub.ErrorResponse`
from line 103, returning the HTTP status code on a match. -/
def GoError.asErrorResponse : GoError → Option Int
  | GoError.apiError status => some status
  | _ => none

/-- A registry-side runner (`gogithub.Runner`): pointer-typed `Name` and
`ID` fields become `Option`s; `GetName` yields `""` for a missing name. -/
structure Runner where
  name : Option String
  id : Option Int
  deriving DecidableEq

/-- The runner pod. `annotations` embeds the pod's annotation map
(`map[string]string`, association-list representation). The two fields
`stopped` and `exitCode` carry the read-only pod-status observations used
by the core:

* `stopped` is the value of `runnerPodOrContainerIsStopped(pod)`.
  Modelled from the spec: that function is defined outside `src/`; per
  §4.2 row 8 it observes whether the runner's own container has stopped
  with a successful status.
* `exitCode` is the value of `runnerContainerExitCode(pod)`.
  Modelled from the spec: that function is defined outside `src/`; per the
  data model (§3) the container exit code is a read-only optional field of
  the pod's status. -/
structure Pod where
  annotations : List (String × String)
  stopped : Bool
  exitCode : Option Int
  deriving DecidableEq

/-- `ctrl.Result`; `&ctrl.Result{}` is `{ requeueAfter := 0 }`. -/
structure CtrlResult where
  requeueAfter : Int
  deriving DecidableEq

/-- The behaviour of the external collaborators during one tick:
the clock (`time.Now`), the RFC3339 parser and formatter (`time.Parse`,
`Time.Format`), the Kubernetes patch call (`c.Patch`, indexed by the
annotation key being added), and the GitHub registry
(`client.ListRunners`, `client.RemoveRunner`). -/
structure Env where
  now : Int
  parseTime : String → Option Int
  formatTime : Int → String
  patchErr : String → Option GoError
  listRunners : Except GoError (List Runner)
  removeErr : Int → Option GoError

/-- One outward call performed by the core, with its result: an annotation
patch, a `RemoveRunner` call, or a `ListRunners` query. -/
inductive Effect where
  | patch (key val : String) (result : Option GoError)
  | removeCall (id : Int) (result : Option GoError)
  | listCall (result : Option GoError)
  deriving DecidableEq

/-- Whether an effect is an annotation patch. -/
def Effect.isPatch : Effect → Bool
  | Effect.patch _ _ _ => true
  | _ => false

/-- Whether an effect is a registry removal call. -/
def Effect.isRemove : Effect → Bool
  | Effect.removeCall _ _ => true
  | _ => false

/-- Whether an effect is a registry list query. -/
def Effect.isList : Effect → Bool
  | Effect.listCall _ => true
  | _ => false

/-- Modelled from the spec: annotation key constant declared outside
`src/`; §6 fixes the stable name `runner-id`. -/
def AnnotationKeyRunnerID : String := "runner-id"

/-- Modelled from the spec: annotation key constant declared outside
`src/`; §6 fixes the stable name `unregistration-start-timestamp`. -/
def AnnotationKeyUnregistrationStartTimestamp : String :=
  "unregistration-start-timestamp"

/-- Modelled from the spec: annotation key constant declared outside
`src/`; §6 fixes the stable name `unregistration-complete-timestamp`. -/
def AnnotationKeyUnregistrationCompleteTimestamp : String :=
  "unregistration-complete-timestamp"

/-- Modelled from the spec: the extended rate-limit backoff constant
`retryDelayOnGitHubAPIRateLimitError` is declared outside `src/`; §6 says
it is on the order of a minute. Durations are in seconds. -/
def retryDelayOnGitHubAPIRateLimitError : Int := 60

/-- Modelled from the spec: the default retry delay constant (the value
callers pass for `retryDelay`) is declared outside `src/`; §6 says it is a
short delay on the order of seconds. Durations are in seconds. -/
def defaultRetryDelay : Int := 10

/-- Lookup in the annotation map: first binding of the key. -/
def lookupKV : List (String × String) → String → Option String
  | [], _ => none
  | (k', v') :: rest, k => if k' = k then some v' else lookupKV rest k

/-- Overwriting insert into the annotation map (Go map assignment). -/
def insertKV : List (String × String) → String → String → List (String × String)
  | [], k, v => [(k, v)]
  | (k', v') :: rest, k, v =>
    if k' = k then (k, v) :: rest else (k', v') :: insertKV rest k v

/-- Embeds `getAnnotation` (lines 202-210) as called on a non-nil pod:
comma-ok lookup of an annotation, with the `obj.GetAnnotations() == nil`
fast path folded into the lookup (a nil map has no entries). The source
function has no nil-object guard; the nil-pod call is `getAnnotationObj`. -/
def getAnnot (p : Pod) (key : String) : String × Bool :=
  match lookupKV p.annotations key with
  | some v => (v, true)
  | none => ("", false)

/-- The `getAnnotation(pod, ...)` call of line 75 at its actual nilable
argument type. `getAnnotation` takes a `client.Object` and immediately
calls `obj.GetAnnotations()`; on a typed-nil `*corev1.Pod` that method —
promoted from the value-embedded `metav1.ObjectMeta` with a `*ObjectMeta`
receiver — dereferences the nil pointer (`&pod.ObjectMeta`) and panics.
`none` models that run-time panic. -/
def getAnnotationObj (pod : Option Pod) (key : String) : Option (String × Bool) :=
  match pod with
  | none => none
  | some p => some (getAnnot p key)

/-- Embeds `setAnnotation` (lines 212-218): initialise-if-nil plus map
assignment, i.e. an overwriting insert. -/
def setAnnot (p : Pod) (k v : String) : Pod :=
  { p with annotations := insertKV p.annotations k v }

/-- Direct map indexing `pod.Annotations[key]` (lines 138 and 150): yields
`""` when the key is absent. -/
def annotationValue (p : Pod) (key : String) : String :=
  (lookupKV p.annotations key).getD ""

/-- Modelled from the spec: `runnerPodOrContainerIsStopped` is defined
outside `src/`; it reads only pod status (§3) and reports whether the
runner pod or its runner container has stopped with a successful status
(§4.2 row 8). The observation is carried on the pod model. -/
def runnerPodOrContainerIsStopped (p : Pod) : Bool := p.stopped

/-- Modelled from the spec: `runnerContainerExitCode` is defined outside
`src/`; per the data model (§3) it reads the runner container's exit code
from pod status, absent while the container has not exited. The nil-pod
arm is unreachable in the embedded call (line 104 sits behind the
line-75 panic, so the pod is non-nil there); `none` keeps the function
total. -/
def runnerContainerExitCode : Option Pod → Option Int
  | none => none
  | some p => p.exitCode

/-- Embeds `strconv.ParseInt(id, 10, 64)` (line 76): optional sign, at
least one decimal digit, nothing else, and the value must fit in a signed
64-bit integer. `none` is the error case. -/
def parseInt64 (s : String) : Option Int :=
  match s.toList with
  | [] => none
  | c :: rest =>
    let signedDigits : Bool × List Char :=
      if c = '-' then (true, rest)
      else if c = '+' then (false, rest)
      else (false, c :: rest)
    match signedDigits with
    | (neg, ds) =>
      if ds = [] then none
      else if ds.all Char.isDigit then
        let n : Nat := ds.foldl (fun acc d => acc * 10 + (d.toNat - 48)) 0
        let v : Int := if neg then -(n : Int) else (n : Int)
        if v < -(2 ^ 63) ∨ 2 ^ 63 - 1 < v then none else some v
      else none

/-- Embeds `getRunner` (lines 320-333): `ListRunners`, then the first
runner whose `GetName()` equals `name`; `(nil, nil)` when absent. The
list query is recorded in the trace. -/
def getRunner (env : Env) (name : String) :
    Except GoError (Option Runner) × List Effect :=
  match env.listRunners with
  | Except.error e => (Except.error e, [Effect.listCall (some e)])
  | Except.ok rs =>
    (Except.ok (rs.find? (fun r => r.name.getD "" == name)), [Effect.listCall none])

/-- Embeds the `client.RemoveRunner` call and its handling at lines
313-317: `(false, err)` on error, `(true, nil)` on success. The removal
call is recorded in the trace. -/
def removeById (env : Env) (i : Int) : (Bool × Option GoError) × List Effect :=
  match env.removeErr i with
  | some e => ((false, some e), [Effect.removeCall i (some e)])
  | none => ((true, none), [Effect.removeCall i none])

/-- Embeds `unregisterRunner` (lines 279-318): when no id is known, look
the runner up by name (propagating a list error, and returning
`(false, nil)` when the runner or its id is absent), then remove by id. -/
def unregisterRunner (env : Env) (name : String) (id : Option Int) :
    (Bool × Option GoError) × List Effect :=
  match id with
  | some i => removeById env i
  | none =>
    match getRunner env name with
    | (Except.error e, tr) => ((false, some e), tr)
    | (Except.ok none, tr) => ((false, none), tr)
    | (Except.ok (some r), tr) =>
      match r.id with
      | none => ((false, none), tr)
      | some i =>
        match removeById env i with
        | (res, tr2) => (res, tr ++ tr2)

/-- Embeds the error arm of `ensureRunnerUnregistration` (lines 85-126):
rate-limit errors yield the extended backoff with the error attached; a
structured API error triggers a best-effort runner lookup (its result and
error are only logged) and, when the status is 422 and the runner
container has an exit code, the pod is declared safe to delete; every
other error yields an empty result plus the error. -/
def decideOnUnregisterError (env : Env) (name : String) (pod : Option Pod)
    (e : GoError) : (Option CtrlResult × Option GoError) × List Effect :=
  if e.isRateLimit then
    ((some { requeueAfter := retryDelayOnGitHubAPIRateLimitError }, some e), [])
  else
    match e.asErrorResponse with
    | some status =>
      match getRunner env name with
      | (_, tr2) =>
        if status = 422 ∧ (runnerContainerExitCode pod).isSome = true then
          ((none, none), tr2)
        else
          ((some { requeueAfter := 0 }, some e), tr2)
    | none => ((some { requeueAfter := 0 }, some e), [])

/-- Embeds the not-found arm of `ensureRunnerUnregistration` (lines
129-174): nil pod, a non-empty complete-timestamp annotation, and a
stopped pod/container are each safe to delete; a non-empty
start-timestamp annotation is parsed (parse failure returns the delayed
retry plus the error) and compared against the grace window
(`time.Until(t.Add(unregistrationTimeout)) > 0` is
`0 < t + timeout - now`); otherwise the backward-compatibility fallback
retries after `retryDelay` with no error. -/
def decideOnNotFound (env : Env) (timeout retryDelay : Int) (pod : Option Pod) :
    Option CtrlResult × Option GoError :=
  match pod with
  | none => (none, none)
  | some p =>
    if annotationValue p AnnotationKeyUnregistrationCompleteTimestamp ≠ "" then
      (none, none)
    else if runnerPodOrContainerIsStopped p = true then
      (none, none)
    else if annotationValue p AnnotationKeyUnregistrationStartTimestamp ≠ "" then
      match env.parseTime (annotationValue p AnnotationKeyUnregistrationStartTimestamp) with
      | none =>
        (some { requeueAfter := retryDelay },
         some (GoError.parseTimeError
           (annotationValue p AnnotationKeyUnregistrationStartTimestamp)))
      | some t =>
        if 0 < t + timeout - env.now then
          (some { requeueAfter := retryDelay }, none)
        else
          (none, none)
    else
      (some { requeueAfter := retryDelay }, none)

/-- The body of `ensureRunnerUnregistration` after the runner id has been
resolved (lines 84-174): call `unregisterRunner`, then branch on its error
(`decideOnUnregisterError`), on success (`ok`, safe to delete), and on the
not-found outcome (`decideOnNotFound`). -/
def ensureWithID (env : Env) (timeout retryDelay : Int) (name : String)
    (pod : Option Pod) (runnerID : Option Int) :
    (Option CtrlResult × Option GoError) × List Effect :=
  match unregisterRunner env name runnerID with
  | ((_, some e), tr1) =>
    match decideOnUnregisterError env name pod e with
    | (res, tr2) => (res, tr1 ++ tr2)
  | ((true, none), tr1) => ((none, none), tr1)
  | ((false, none), tr1) => (decideOnNotFound env timeout retryDelay pod, tr1)

/-- Embeds `ensureRunnerUnregistration` (lines 72-175) for a non-nil pod
— the only case in which the source function returns at all (see
`ensureRunnerUnregistrationObj` for the nil-pod panic). A present
runner-id annotation is parsed with `strconv.ParseInt`; a parse failure
returns `(&ctrl.Result{}, err)` before any outward call. -/
def ensureRunnerUnregistration (env : Env) (timeout retryDelay : Int)
    (name : String) (p : Pod) :
    (Option CtrlResult × Option GoError) × List Effect :=
  match getAnnot p AnnotationKeyRunnerID with
  | (idStr, true) =>
    match parseInt64 idStr with
    | none => ((some { requeueAfter := 0 }, some (GoError.parseIntError idStr)), [])
    | some v => ensureWithID env timeout retryDelay name (some p) (some v)
  | (_, false) => ensureWithID env timeout retryDelay name (some p) none

/-- `ensureRunnerUnregistration` at the source function's actual nilable
pod parameter: its first statement is the `getAnnotation(pod, ...)` call
of line 75, so on a nil pod the function panics there (`none`) before any
outward call — the nil-pod branch of line 129 is unreachable. On a
non-nil pod it runs the body `ensureRunnerUnregistration`. -/
def ensureRunnerUnregistrationObj (env : Env) (timeout retryDelay : Int)
    (name : String) (pod : Option Pod) :
    Option ((Option CtrlResult × Option GoError) × List Effect) :=
  match getAnnotationObj pod AnnotationKeyRunnerID with
  | none => none
  | some (idStr, true) =>
    match parseInt64 idStr with
    | none =>
      some ((some { requeueAfter := 0 }, some (GoError.parseIntError idStr)), [])
    | some v => some (ensureWithID env timeout retryDelay name pod (some v))
  | some (_, false) => some (ensureWithID env timeout retryDelay name pod none)

/-- The runner id `ensureRunnerUnregistration` resolves from the pod's
runner-id annotation (lines 73-82): `some rid` when the head of the
function reaches the `unregisterRunner` call with id `rid`; `none` when
the annotation is present but fails to parse. -/
def resolvedRunnerID (p : Pod) : Option (Option Int) :=
  match getAnnot p AnnotationKeyRunnerID with
  | (idStr, true) =>
    match parseInt64 idStr with
    | none => none
    | some v => some (some v)
  | (_, false) => some none

/-- Embeds `annotatePodOnce` (lines 50-69): nil pod passes through; an
already-present key returns the pod as-is with no patch; otherwise a
copy-on-write patch adds the annotation, failure returning
`(nil, err)`. -/
def annotatePodOnce (env : Env) (pod : Option Pod) (k v : String) :
    (Option Pod × Option GoError) × List Effect :=
  match pod with
  | none => ((none, none), [])
  | some p =>
    match getAnnot p k with
    | (_, true) => ((some p, none), [])
    | (_, false) =>
      match env.patchErr k with
      | some e => ((none, some e), [Effect.patch k v (some e)])
      | none => ((some (setAnnot p k v), none), [Effect.patch k v none])

/-- Embeds `tickRunnerGracefulStop` (lines 29-45): mark the start
timestamp (patch failure aborts with `(nil, &ctrl.Result{}, err)`), run
`ensureRunnerUnregistration` (a non-nil result is propagated unchanged),
mark the complete timestamp (failure aborts likewise), and return the pod
as safe to delete. A nil pod passes through the first `annotatePodOnce`
untouched and then panics inside `ensureRunnerUnregistration` (line 75);
`none` models that panic propagating out of the tick. -/
def tickRunnerGracefulStop (env : Env) (timeout retryDelay : Int)
    (name : String) (pod : Option Pod) :
    Option ((Option Pod × Option CtrlResult × Option GoError) × List Effect) :=
  match annotatePodOnce env pod AnnotationKeyUnregistrationStartTimestamp
      (env.formatTime env.now) with
  | ((_, some e), tr1) => some ((none, some { requeueAfter := 0 }, some e), tr1)
  | ((pod1, none), tr1) =>
    match ensureRunnerUnregistrationObj env timeout retryDelay name pod1 with
    | none => none
    | some ((some r, err2), tr2) => some ((none, some r, err2), tr1 ++ tr2)
    | some ((none, _), tr2) =>
      match annotatePodOnce env pod1 AnnotationKeyUnregistrationCompleteTimestamp
          (env.formatTime env.now) with
      | ((_, some e), tr3) =>
        some ((none, some { requeueAfter := 0 }, some e), tr1 ++ tr2 ++ tr3)
      | ((pod2, none), tr3) => some ((pod2, none, none), tr1 ++ tr2 ++ tr3)

/-- Error-propagation discipline of a trace relative to the pod under
evaluation: every patch succeeded, and every removal call either
succeeded or failed with a structured 422 API error while the runner
container had already exited (the inference branch that deliberately
reclassifies the failure as success). List queries are best-effort. -/
def traceOkExcept422 (pod : Option Pod) (tr : List Effect) : Bool :=
  tr.all fun eff =>
    match eff with
    | Effect.patch _ _ res => res.isNone
    | Effect.removeCall _ res =>
      match res with
      | none => true
      | some (GoError.apiError s) =>
        (s == 422) && (runnerContainerExitCode pod).isSome
      | some _ => false
    | Effect.listCall _ => true

/-! ### Branch lemmas -/

/-- On a non-nil pod the source-signature decider runs the body. -/
theorem ensureObj_some (env : Env) (timeout retryDelay : Int) (name : String)
    (p : Pod) :
    ensureRunnerUnregistrationObj env timeout retryDelay name (some p)
      = some (ensureRunnerUnregistration env timeout retryDelay name p) := by
  rcases hg : getAnnot p AnnotationKeyRunnerID with ⟨idStr, b⟩
  cases b with
  | true =>
    cases hp : parseInt64 idStr <;>
      simp [ensureRunnerUnregistrationObj, getAnnotationObj,
        ensureRunnerUnregistration, hg, hp]
  | false =>
    simp [ensureRunnerUnregistrationObj, getAnnotationObj,
      ensureRunnerUnregistration, hg]

/-- When the runner id resolves (no parse failure), the decider is its
post-resolution body. -/
theorem ensure_eq_withID (env : Env) (timeout retryDelay : Int) (name : String)
    (p : Pod) (rid : Option Int)
    (h : resolvedRunnerID p = some rid) :
    ensureRunnerUnregistration env timeout retryDelay name p
      = ensureWithID env timeout retryDelay name (some p) rid := by
  rcases hg : getAnnot p AnnotationKeyRunnerID with ⟨idStr, b⟩
  cases b with
  | false =>
    simp only [resolvedRunnerID, hg, Option.some.injEq] at h
    simp only [ensureRunnerUnregistration, hg]
    rw [h]
  | true =>
    simp only [resolvedRunnerID, hg] at h
    cases hp : parseInt64 idStr with
    | none => rw [hp] at h; exact absurd h (by simp)
    | some v =>
      rw [hp] at h
      simp only [Option.some.injEq] at h
      simp only [ensureRunnerUnregistration, hg, hp]
      rw [h]

/-- When `unregisterRunner` errors, the decider defers to the error arm. -/
theorem withID_err (env : Env) (timeout retryDelay : Int) (name : String)
    (pod : Option Pod) (rid : Option Int) (e : GoError)
    (h : (unregisterRunner env name rid).1.2 = some e) :
    ensureWithID env timeout retryDelay name pod rid
      = ((decideOnUnregisterError env name pod e).1,
         (unregisterRunner env name rid).2
           ++ (decideOnUnregisterError env name pod e).2) := by
  rcases hu : unregisterRunner env name rid with ⟨⟨ok, errU⟩, tr1⟩
  rw [hu] at h
  simp only at h
  subst h
  rcases hd : decideOnUnregisterError env name pod e with ⟨res, tr2⟩
  simp [ensureWithID, hu, hd]

/-- When `unregisterRunner` reports success, the pod is safe to delete. -/
theorem withID_ok (env : Env) (timeout retryDelay : Int) (name : String)
    (pod : Option Pod) (rid : Option Int)
    (h : (unregisterRunner env name rid).1 = (true, none)) :
    ensureWithID env timeout retryDelay name pod rid
      = ((none, none), (unregisterRunner env name rid).2) := by
  rcases hu : unregisterRunner env name rid with ⟨⟨ok, errU⟩, tr1⟩
  rw [hu] at h
  simp only [Prod.mk.injEq] at h
  obtain ⟨h1, h2⟩ := h
  subst h1; subst h2
  simp [ensureWithID, hu]

/-- When `unregisterRunner` reports not-found, the decider defers to the
not-found arm. -/
theorem withID_notFound (env : Env) (timeout retryDelay : Int) (name : String)
    (pod : Option Pod) (rid : Option Int)
    (h : (unregisterRunner env name rid).1 = (false, none)) :
    ensureWithID env timeout retryDelay name pod rid
      = (decideOnNotFound env timeout retryDelay pod,
         (unregisterRunner env name rid).2) := by
  rcases hu : unregisterRunner env name rid with ⟨⟨ok, errU⟩, tr1⟩
  rw [hu] at h
  simp only [Prod.mk.injEq] at h
  obtain ⟨h1, h2⟩ := h
  subst h1; subst h2
  simp [ensureWithID, hu]

/-- The not-found arm on a live pod (complete-timestamp unset, not
stopped) with a non-empty start-timestamp annotation reduces to the
grace-window computation. -/
theorem notFound_grace (env : Env) (timeout retryDelay : Int) (p : Pod) (ts : String)
    (hcomp : annotationValue p AnnotationKeyUnregistrationCompleteTimestamp = "")
    (hstop : runnerPodOrContainerIsStopped p = false)
    (hts : annotationValue p AnnotationKeyUnregistrationStartTimestamp = ts)
    (hne : ts ≠ "") :
    decideOnNotFound env timeout retryDelay (some p)
      = match env.parseTime ts with
        | none => (some { requeueAfter := retryDelay }, some (GoError.parseTimeError ts))
        | some t =>
          if 0 < t + timeout - env.now then (some { requeueAfter := retryDelay }, none)
          else (none, none) := by
  simp only [decideOnNotFound, hcomp, hstop, hts]
  rw [if_neg (by simp), if_neg (by simp), if_pos hne]

/-! ### Claims -/

/-- C1 (grace-period convergence): for a non-nil pod whose
start-timestamp annotation parses to `t` (complete-timestamp unset,
container not stopped), when the remove call reports not-found the
decider returns a retry directive with delay `retryDelay` and no error
whenever `now < t + unregistrationTimeout`, and returns safe-to-delete
(nil directive, nil error) on any tick at or after
`t + unregistrationTimeout`. -/
theorem spec_c1 (env : Env) (timeout retryDelay : Int) (name : String) (p : Pod)
    (rid : Option Int) (ts : String) (t : Int)
    (hrid : resolvedRunnerID p = some rid)
    (hrem : (unregisterRunner env name rid).1 = (false, none))
    (hcomp : annotationValue p AnnotationKeyUnregistrationCompleteTimestamp = "")
    (hstop : runnerPodOrContainerIsStopped p = false)
    (hts : annotationValue p AnnotationKeyUnregistrationStartTimestamp = ts)
    (hne : ts ≠ "")
    (hparse : env.parseTime ts = some t) :
    (env.now < t + timeout →
      (ensureRunnerUnregistration env timeout retryDelay name p).1
        = (some { requeueAfter := retryDelay }, none)) ∧
    (t + timeout ≤ env.now →
      (ensureRunnerUnregistration env timeout retryDelay name p).1
        = (none, none)) := by
  have h1 : (ensureRunnerUnregistration env timeout retryDelay name p).1
      = decideOnNotFound env timeout retryDelay (some p) := by
    rw [ensure_eq_withID env timeout retryDelay name p rid hrid,
        withID_notFound env timeout retryDelay name (some p) rid hrem]
  rw [h1, notFound_grace env timeout retryDelay p ts hcomp hstop hts hne, hparse]
  constructor
  · intro hlt
    simp only
    rw [if_pos (by omega)]
  · intro hge
    simp only
    rw [if_neg (by omega)]

/-- Witness for C1 at a concrete input: start-timestamp parses to 50,
`now = 100`; with timeout 100 the tick retries after the default delay 7,
with timeout 30 the grace period has elapsed and the pod is safe. -/
theorem spec_c1_witness :
    (ensureRunnerUnregistration
      { now := 100, parseTime := fun s => if s = "TS" then some 50 else none,
        formatTime := fun _ => "TS", patchErr := fun _ => none,
        listRunners := Except.ok [], removeErr := fun _ => none }
      100 7 "r"
      { annotations := [("unregistration-start-timestamp", "TS")],
        stopped := false, exitCode := none }).1
      = (some { requeueAfter := 7 }, none) ∧
    (ensureRunnerUnregistration
      { now := 100, parseTime := fun s => if s = "TS" then some 50 else none,
        formatTime := fun _ => "TS", patchErr := fun _ => none,
        listRunners := Except.ok [], removeErr := fun _ => none }
      30 7 "r"
      { annotations := [("unregistration-start-timestamp", "TS")],
        stopped := false, exitCode := none }).1
      = (none, none) := by
  constructor
  · exact (spec_c1 _ 100 7 "r" _ none "TS" 50 (by decide) (by decide) (by decide)
      (by decide) (by decide) (by decide) (by decide)).1 (by decide)
  · exact (spec_c1 _ 30 7 "r" _ none "TS" 50 (by decide) (by decide) (by decide)
      (by decide) (by decide) (by decide) (by decide)).2 (by decide)

/-- C5 counterexample: on a start-timestamp annotation that fails to
parse, the code returns a retry directive carrying `RequeueAfter =
retryDelay` (here 7) together with the parse error — not the empty
directive (`RequeueAfter` 0, i.e. `&ctrl.Result{}`) the claim
describes. -/
theorem claim_c5_counterexample :
    (ensureRunnerUnregistration
      { now := 0, parseTime := fun _ => none, formatTime := fun _ => "x",
        patchErr := fun _ => none, listRunners := Except.ok [],
        removeErr := fun _ => none }
      100 7 "r"
      { annotations := [("unregistration-start-timestamp", "bogus")],
        stopped := false, exitCode := none }).1
      = (some { requeueAfter := 7 }, some (GoError.parseTimeError "bogus")) ∧
    (some { requeueAfter := 7 } : Option CtrlResult) ≠ some { requeueAfter := 0 } := by
  constructor
  · decide
  · decide

/-- C5 as amended: a pod whose start-timestamp annotation is reached but
does not parse as RFC3339 makes the decider propagate the parse error to
the caller alongside a retry directive with `RequeueAfter = retryDelay`
(a delayed retry, not an empty directive). -/
theorem spec_c5 (env : Env) (timeout retryDelay : Int) (name : String) (p : Pod)
    (rid : Option Int) (ts : String)
    (hrid : resolvedRunnerID p = some rid)
    (hrem : (unregisterRunner env name rid).1 = (false, none))
    (hcomp : annotationValue p AnnotationKeyUnregistrationCompleteTimestamp = "")
    (hstop : runnerPodOrContainerIsStopped p = false)
    (hts : annotationValue p AnnotationKeyUnregistrationStartTimestamp = ts)
    (hne : ts ≠ "")
    (hparse : env.parseTime ts = none) :
    (ensureRunnerUnregistration env timeout retryDelay name p).1
      = (some { requeueAfter := retryDelay }, some (GoError.parseTimeError ts)) := by
  have h1 : (ensureRunnerUnregistration env timeout retryDelay name p).1
      = decideOnNotFound env timeout retryDelay (some p) := by
    rw [ensure_eq_withID env timeout retryDelay name p rid hrid,
        withID_notFound env timeout retryDelay name (some p) rid hrem]
  rw [h1, notFound_grace env timeout retryDelay p ts hcomp hstop hts hne, hparse]

/-- Witness for the amended C5 at the counterexample's input. -/
theorem spec_c5_witness :
    (ensureRunnerUnregistration
      { now := 0, parseTime := fun _ => none, formatTime := fun _ => "x",
        patchErr := fun _ => none, listRunners := Except.ok [],
        removeErr := fun _ => none }
      100 7 "r"
      { annotations := [("unregistration-start-timestamp", "bogus")],
        stopped := false, exitCode := none }).1
      = (some { requeueAfter := 7 }, some (GoError.parseTimeError "bogus")) :=
  spec_c5 _ 100 7 "r" _ none "bogus" (by decide) (by decide) (by decide)
    (by decide) (by decide) (by decide) (by decide)

/-- C6 (code bug): the claim — like the source's own nil-pod branch and
comment block at lines 129-137 — calls for a nil pod combined with a
not-found registry response to be safe to delete, but the code never gets
there: the `getAnnotation(pod, ...)` call at line 75 runs first and
panics on a typed-nil `*corev1.Pod` (the promoted `GetAnnotations`
dereferences the nil embedding pointer), before `unregisterRunner` is
ever called. Evaluating the embedded code at the failing input: on a nil
pod both the decider and the whole tick panic (`none`) for every
environment — including one whose registry reports not-found — so the
documented safe-to-delete return is unreachable. -/
theorem spec_c6 (env : Env) (timeout retryDelay : Int) (name : String) :
    ensureRunnerUnregistrationObj env timeout retryDelay name none = none ∧
    tickRunnerGracefulStop env timeout retryDelay name none = none := by
  constructor
  · simp [ensureRunnerUnregistrationObj, getAnnotationObj]
  · simp [tickRunnerGracefulStop, annotatePodOnce, ensureRunnerUnregistrationObj,
      getAnnotationObj]

/-- C10 (malformed runner-id annotation): a non-nil pod whose runner-id
annotation does not parse as a decimal 64-bit integer makes
`ensureRunnerUnregistration` return the empty retry directive together
with the parse error, with an empty effect trace: no registry call and no
annotation patch happened. -/
theorem spec_c10 (env : Env) (timeout retryDelay : Int) (name : String)
    (p : Pod) (s : String)
    (h1 : getAnnot p AnnotationKeyRunnerID = (s, true))
    (h2 : parseInt64 s = none) :
    ensureRunnerUnregistration env timeout retryDelay name p
      = ((some { requeueAfter := 0 }, some (GoError.parseIntError s)), []) := by
  simp [ensureRunnerUnregistration, h1, h2]

/-- Witness for C10: runner-id annotation `"12x"` fails to parse; the
tick surfaces the parse error with an empty directive and no effects. -/
theorem spec_c10_witness :
    ensureRunnerUnregistration
      { now := 0, parseTime := fun _ => none, formatTime := fun _ => "x",
        patchErr := fun _ => none, listRunners := Except.ok [],
        removeErr := fun _ => none }
      100 10 "r"
      { annotations := [("runner-id", "12x")], stopped := false,
        exitCode := none }
      = ((some { requeueAfter := 0 }, some (GoError.parseIntError "12x")), []) :=
  spec_c10 _ 100 10 "r" _ "12x" (by decide) (by decide)

/-- C2 counterexample: a pod that carries the complete-timestamp
annotation is NOT safe to delete when the remove call fails with a
rate-limit error — the error arms run before the complete-timestamp
branch, so the tick returns the rate-limit backoff with the error, not
`(nil, nil)`. -/
theorem claim_c2_counterexample :
    annotationValue
      { annotations := [("runner-id", "5"), ("unregistration-complete-timestamp", "done")],
        stopped := false, exitCode := none }
      AnnotationKeyUnregistrationCompleteTimestamp ≠ "" ∧
    (ensureRunnerUnregistration
      { now := 0, parseTime := fun _ => none, formatTime := fun _ => "x",
        patchErr := fun _ => none, listRunners := Except.ok [],
        removeErr := fun _ => some GoError.rateLimit }
      100 10 "r"
      { annotations := [("runner-id", "5"), ("unregistration-complete-timestamp", "done")],
        stopped := false, exitCode := none }).1
      = (some { requeueAfter := retryDelayOnGitHubAPIRateLimitError }, some GoError.rateLimit) ∧
    (ensureRunnerUnregistration
      { now := 0, parseTime := fun _ => none, formatTime := fun _ => "x",
        patchErr := fun _ => none, listRunners := Except.ok [],
        removeErr := fun _ => some GoError.rateLimit }
      100 10 "r"
      { annotations := [("runner-id", "5"), ("unregistration-complete-timestamp", "done")],
        stopped := false, exitCode := none }).1
      ≠ (none, none) := by
  refine ⟨by decide, by decide, by decide⟩

/-- C2 as amended: a pod already carrying the complete-timestamp
annotation is immediately safe to delete (nil directive, nil error)
whenever its runner-id annotation resolves and the remove call itself
returns without error (success or not-found); when the remove call
errors, the error arms take precedence. -/
theorem spec_c2 (env : Env) (timeout retryDelay : Int) (name : String) (p : Pod)
    (rid : Option Int)
    (hrid : resolvedRunnerID p = some rid)
    (hrem : (unregisterRunner env name rid).1.2 = none)
    (hcomp : annotationValue p AnnotationKeyUnregistrationCompleteTimestamp ≠ "") :
    (ensureRunnerUnregistration env timeout retryDelay name p).1
      = (none, none) := by
  rw [ensure_eq_withID env timeout retryDelay name p rid hrid]
  rcases hu : (unregisterRunner env name rid).1 with ⟨ok, errU⟩
  rw [hu] at hrem
  simp only at hrem
  subst hrem
  cases ok with
  | true => rw [withID_ok env timeout retryDelay name (some p) rid hu]
  | false =>
    rw [withID_notFound env timeout retryDelay name (some p) rid hu]
    simp [decideOnNotFound, hcomp]

/-- Witness for the amended C2: remove-by-id succeeds and the pod carries
the complete-timestamp annotation, so the decision is safe-to-delete. -/
theorem spec_c2_witness :
    (ensureRunnerUnregistration
      { now := 0, parseTime := fun _ => none, formatTime := fun _ => "x",
        patchErr := fun _ => none, listRunners := Except.ok [],
        removeErr := fun _ => none }
      100 10 "r"
      { annotations := [("runner-id", "5"), ("unregistration-complete-timestamp", "done")],
        stopped := false, exitCode := none }).1
      = (none, none) :=
  spec_c2 _ 100 10 "r" _ (some 5) (by decide) (by decide) (by decide)

/-- C3 (422-conflict inference): when the removal attempt fails with a
structured API error of HTTP status 422, a pod whose runner container has
an exit code is declared safe to delete (nil directive, nil error), while
a pod whose container has not exited gets the error surfaced along with a
non-nil (empty) retry result — not safe-to-delete. -/
theorem spec_c3 (env : Env) (timeout retryDelay : Int) (name : String) (p : Pod)
    (rid : Option Int)
    (hrid : resolvedRunnerID p = some rid)
    (hrem : (unregisterRunner env name rid).1.2 = some (GoError.apiError 422)) :
    (p.exitCode.isSome = true →
      (ensureRunnerUnregistration env timeout retryDelay name p).1
        = (none, none)) ∧
    (p.exitCode = none →
      (ensureRunnerUnregistration env timeout retryDelay name p).1
        = (some { requeueAfter := 0 }, some (GoError.apiError 422))) := by
  rw [ensure_eq_withID env timeout retryDelay name p rid hrid,
      withID_err env timeout retryDelay name (some p) rid _ hrem]
  rcases hg : getRunner env name with ⟨res, tr2⟩
  constructor
  · intro hx
    simp [decideOnUnregisterError, GoError.isRateLimit, GoError.asErrorResponse,
      hg, runnerContainerExitCode, hx]
  · intro hx
    simp [decideOnUnregisterError, GoError.isRateLimit, GoError.asErrorResponse,
      hg, runnerContainerExitCode, hx]

/-- Witness for C3: the registry rejects removal of runner 5 with a 422;
with exit code 1 recorded the pod is safe to delete, with no exit code the
error is surfaced on a retry result. -/
theorem spec_c3_witness :
    (ensureRunnerUnregistration
      { now := 0, parseTime := fun _ => none, formatTime := fun _ => "x",
        patchErr := fun _ => none, listRunners := Except.ok [],
        removeErr := fun _ => some (GoError.apiError 422) }
      100 10 "r"
      { annotations := [("runner-id", "5")], stopped := false,
        exitCode := some 1 }).1
      = (none, none) ∧
    (ensureRunnerUnregistration
      { now := 0, parseTime := fun _ => none, formatTime := fun _ => "x",
        patchErr := fun _ => none, listRunners := Except.ok [],
        removeErr := fun _ => some (GoError.apiError 422) }
      100 10 "r"
      { annotations := [("runner-id", "5")], stopped := false,
        exitCode := none }).1
      = (some { requeueAfter := 0 }, some (GoError.apiError 422)) := by
  constructor
  · exact (spec_c3 _ 100 10 "r" _ (some 5) (by decide) (by decide)).1 (by decide)
  · exact (spec_c3 _ 100 10 "r" _ (some 5) (by decide) (by decide)).2 (by decide)

/-- C4 (rate-limit backoff distinctness): a rate-limit failure of the
remove call yields a retry directive carrying the fixed extended backoff
`retryDelayOnGitHubAPIRateLimitError` — strictly longer than, and never
equal to, the default retry delay — with the rate-limit error attached
rather than escalated to a terminal failure. -/
theorem spec_c4 (env : Env) (timeout retryDelay : Int) (name : String)
    (p : Pod) (rid : Option Int) (e : GoError)
    (hrid : resolvedRunnerID p = some rid)
    (hrem : (unregisterRunner env name rid).1.2 = some e)
    (hrl : e.isRateLimit = true) :
    (ensureRunnerUnregistration env timeout retryDelay name p).1
      = (some { requeueAfter := retryDelayOnGitHubAPIRateLimitError }, some e)
    ∧ defaultRetryDelay < retryDelayOnGitHubAPIRateLimitError
    ∧ retryDelayOnGitHubAPIRateLimitError ≠ defaultRetryDelay := by
  refine ⟨?_, by decide, by decide⟩
  rw [ensure_eq_withID env timeout retryDelay name p rid hrid,
      withID_err env timeout retryDelay name (some p) rid e hrem]
  simp [decideOnUnregisterError, hrl]

/-- Witness for C4: removal of runner 5 is rate limited; the decider
returns the 60-second backoff with the error attached. -/
theorem spec_c4_witness :
    (ensureRunnerUnregistration
      { now := 0, parseTime := fun _ => none, formatTime := fun _ => "x",
        patchErr := fun _ => none, listRunners := Except.ok [],
        removeErr := fun _ => some GoError.rateLimit }
      100 10 "r"
      { annotations := [("runner-id", "5")], stopped := false,
        exitCode := none }).1
      = (some { requeueAfter := retryDelayOnGitHubAPIRateLimitError },
         some GoError.rateLimit)
    ∧ defaultRetryDelay < retryDelayOnGitHubAPIRateLimitError
    ∧ retryDelayOnGitHubAPIRateLimitError ≠ defaultRetryDelay :=
  spec_c4 _ 100 10 "r" _ (some 5) GoError.rateLimit (by decide) (by decide) (by decide)

/-- Inserting a key makes it present with the inserted value. -/
theorem lookupKV_insertKV_self (l : List (String × String)) (k v : String) :
    lookupKV (insertKV l k v) k = some v := by
  induction l with
  | nil => simp [insertKV, lookupKV]
  | cons hd tl ih =>
    rcases hd with ⟨a, b⟩
    by_cases h : a = k
    · simp [insertKV, h, lookupKV]
    · simp [insertKV, h, lookupKV, ih]

/-- Inserting one key leaves every other key's binding unchanged. -/
theorem lookupKV_insertKV_ne (l : List (String × String)) (k v k' : String)
    (h : k ≠ k') :
    lookupKV (insertKV l k v) k' = lookupKV l k' := by
  induction l with
  | nil => simp [insertKV, lookupKV, h]
  | cons hd tl ih =>
    rcases hd with ⟨a, b⟩
    by_cases ha : a = k
    · subst ha
      simp [insertKV, lookupKV, h]
    · simp [insertKV, ha, lookupKV, ih]

/-- After `setAnnotation`, the written key reads back as present with the
written value. -/
theorem getAnnot_setAnnot_self (p : Pod) (k v : String) :
    getAnnot (setAnnot p k v) k = (v, true) := by
  simp [getAnnot, setAnnot, lookupKV_insertKV_self]

/-- `setAnnotation` leaves every other annotation key unchanged. -/
theorem getAnnot_setAnnot_ne (p : Pod) (k v k' : String) (h : k ≠ k') :
    getAnnot (setAnnot p k v) k' = getAnnot p k' := by
  simp [getAnnot, setAnnot, lookupKV_insertKV_ne _ _ _ _ h]

/-- C7 (annotation idempotence and write-once): (i) when the key is
already present, `annotatePodOnce` returns the input pod unchanged and
issues no patch; (ii) after any successful call, a second call with the
same key is a no-op returning the same pod with no patch; (iii) an
annotation already present on the pod is never overwritten or removed by
`annotatePodOnce`, the sole annotation-writing operation of this core. -/
theorem spec_c7 (env env2 : Env) (p : Pod) (k v v2 : String) :
    ((getAnnot p k).2 = true →
      annotatePodOnce env (some p) k v = ((some p, none), [])) ∧
    (∀ p', (annotatePodOnce env (some p) k v).1 = (some p', none) →
      annotatePodOnce env2 (some p') k v2 = ((some p', none), [])) ∧
    (∀ w k2 u p'', getAnnot p k = (w, true) →
      (annotatePodOnce env (some p) k2 u).1.1 = some p'' →
      getAnnot p'' k = (w, true)) := by
  refine ⟨?_, ?_, ?_⟩
  · intro h
    rcases hg : getAnnot p k with ⟨w, b⟩
    rw [hg] at h
    simp only at h
    subst h
    simp [annotatePodOnce, hg]
  · intro p' h
    rcases hg : getAnnot p k with ⟨w, b⟩
    cases b with
    | true =>
      simp only [annotatePodOnce, hg] at h
      simp only [Prod.mk.injEq, Option.some.injEq] at h
      rw [← h.1]
      simp [annotatePodOnce, hg]
    | false =>
      cases hp : env.patchErr k with
      | some e => simp [annotatePodOnce, hg, hp] at h
      | none =>
        simp only [annotatePodOnce, hg, hp] at h
        simp only [Prod.mk.injEq, Option.some.injEq] at h
        rw [← h.1]
        simp [annotatePodOnce, getAnnot_setAnnot_self]
  · intro w k2 u p'' hw h
    rcases hg2 : getAnnot p k2 with ⟨w2, b2⟩
    cases b2 with
    | true =>
      simp only [annotatePodOnce, hg2, Option.some.injEq] at h
      rw [← h]
      exact hw
    | false =>
      cases hp : env.patchErr k2 with
      | some e => simp [annotatePodOnce, hg2, hp] at h
      | none =>
        simp only [annotatePodOnce, hg2, hp, Option.some.injEq] at h
        have hne : k2 ≠ k := by
          intro hkk
          subst hkk
          rw [hw] at hg2
          simp at hg2
        rw [← h, getAnnot_setAnnot_ne p k2 u k hne]
        exact hw

/-- Witness for C7: a pod already annotated with `k ↦ v` passes through
unchanged; a freshly annotated pod is a fixed point of a second call; and
annotating a different key preserves the existing binding. -/
theorem spec_c7_witness :
    annotatePodOnce
      { now := 0, parseTime := fun _ => none, formatTime := fun _ => "x",
        patchErr := fun _ => none, listRunners := Except.ok [],
        removeErr := fun _ => none }
      (some { annotations := [("k", "v")], stopped := false, exitCode := none })
      "k" "w"
      = ((some { annotations := [("k", "v")], stopped := false, exitCode := none },
          none), []) ∧
    annotatePodOnce
      { now := 1, parseTime := fun _ => none, formatTime := fun _ => "y",
        patchErr := fun _ => none, listRunners := Except.ok [],
        removeErr := fun _ => none }
      (some { annotations := [("k", "v")], stopped := false, exitCode := none })
      "k" "z"
      = ((some { annotations := [("k", "v")], stopped := false, exitCode := none },
          none), []) ∧
    getAnnot
      { annotations := [("k", "v"), ("j", "u")], stopped := false,
        exitCode := none }
      "k" = ("v", true) := by
  refine ⟨?_, ?_, ?_⟩
  · exact (spec_c7
      { now := 0, parseTime := fun _ => none, formatTime := fun _ => "x",
        patchErr := fun _ => none, listRunners := Except.ok [],
        removeErr := fun _ => none }
      { now := 1, parseTime := fun _ => none, formatTime := fun _ => "y",
        patchErr := fun _ => none, listRunners := Except.ok [],
        removeErr := fun _ => none }
      { annotations := [("k", "v")], stopped := false, exitCode := none }
      "k" "w" "z").1 (by decide)
  · exact (spec_c7
      { now := 0, parseTime := fun _ => none, formatTime := fun _ => "x",
        patchErr := fun _ => none, listRunners := Except.ok [],
        removeErr := fun _ => none }
      { now := 1, parseTime := fun _ => none, formatTime := fun _ => "y",
        patchErr := fun _ => none, listRunners := Except.ok [],
        removeErr := fun _ => none }
      { annotations := [], stopped := false, exitCode := none }
      "k" "v" "z").2.1
      { annotations := [("k", "v")], stopped := false, exitCode := none }
      (by decide)
  · exact (spec_c7
      { now := 0, parseTime := fun _ => none, formatTime := fun _ => "x",
        patchErr := fun _ => none, listRunners := Except.ok [],
        removeErr := fun _ => none }
      { now := 1, parseTime := fun _ => none, formatTime := fun _ => "y",
        patchErr := fun _ => none, listRunners := Except.ok [],
        removeErr := fun _ => none }
      { annotations := [("k", "v")], stopped := false, exitCode := none }
      "k" "w" "z").2.2 "v" "j" "u"
      { annotations := [("k", "v"), ("j", "u")], stopped := false, exitCode := none }
      (by decide) (by decide)

/-- Effect counts of the by-name lookup: exactly one list query. -/
theorem getRunner_counts (env : Env) (name : String) :
    (getRunner env name).2.countP Effect.isPatch = 0 ∧
    (getRunner env name).2.countP Effect.isRemove = 0 ∧
    (getRunner env name).2.countP Effect.isList = 1 := by
  cases h : env.listRunners <;>
    simp [getRunner, h, Effect.isPatch, Effect.isRemove, Effect.isList,
      List.countP_cons, List.countP_nil]

/-- Effect counts of the removal call: exactly one removal. -/
theorem removeById_counts (env : Env) (i : Int) :
    (removeById env i).2.countP Effect.isPatch = 0 ∧
    (removeById env i).2.countP Effect.isRemove = 1 ∧
    (removeById env i).2.countP Effect.isList = 0 := by
  cases h : env.removeErr i <;>
    simp [removeById, h, Effect.isPatch, Effect.isRemove, Effect.isList,
      List.countP_cons, List.countP_nil]

/-- Effect counts of `unregisterRunner`: no patches, at most one removal,
at most one list query. -/
theorem unregisterRunner_counts (env : Env) (name : String) (rid : Option Int) :
    (unregisterRunner env name rid).2.countP Effect.isPatch = 0 ∧
    (unregisterRunner env name rid).2.countP Effect.isRemove ≤ 1 ∧
    (unregisterRunner env name rid).2.countP Effect.isList ≤ 1 := by
  cases rid with
  | some i =>
    obtain ⟨h1, h2, h3⟩ := removeById_counts env i
    simp only [unregisterRunner]
    exact ⟨h1, by omega, by omega⟩
  | none =>
    rcases hg : getRunner env name with ⟨res, tr⟩
    have hgc := getRunner_counts env name
    rw [hg] at hgc
    simp only at hgc
    obtain ⟨g1, g2, g3⟩ := hgc
    cases res with
    | error e =>
      simp only [unregisterRunner, hg]
      exact ⟨g1, by omega, by omega⟩
    | ok ro =>
      cases ro with
      | none =>
        simp only [unregisterRunner, hg]
        exact ⟨g1, by omega, by omega⟩
      | some r =>
        cases hrid : r.id with
        | none =>
          simp only [unregisterRunner, hg, hrid]
          exact ⟨g1, by omega, by omega⟩
        | some i =>
          rcases hb : removeById env i with ⟨rres, tr2⟩
          have hbc := removeById_counts env i
          rw [hb] at hbc
          simp only at hbc
          obtain ⟨b1, b2, b3⟩ := hbc
          simp only [unregisterRunner, hg, hrid, hb, List.countP_append]
          exact ⟨by omega, by omega, by omega⟩

/-- Effect counts of the error arm: no patches, no removals, at most one
(best-effort) list query. -/
theorem decideErr_counts (env : Env) (name : String) (pod : Option Pod)
    (e : GoError) :
    (decideOnUnregisterError env name pod e).2.countP Effect.isPatch = 0 ∧
    (decideOnUnregisterError env name pod e).2.countP Effect.isRemove = 0 ∧
    (decideOnUnregisterError env name pod e).2.countP Effect.isList ≤ 1 := by
  cases hrl : e.isRateLimit with
  | true => simp [decideOnUnregisterError, hrl]
  | false =>
    cases har : e.asErrorResponse with
    | none => simp [decideOnUnregisterError, hrl, har]
    | some status =>
      rcases hg : getRunner env name with ⟨res, tr⟩
      have hgc := getRunner_counts env name
      rw [hg] at hgc
      simp only at hgc
      obtain ⟨g1, g2, g3⟩ := hgc
      simp only [decideOnUnregisterError, hrl, har, hg, Bool.false_eq_true,
        if_false]
      split <;> exact ⟨g1, g2, g3.le⟩

/-- Effect counts of the full decider: no patches, at most one removal,
at most two list queries. -/
theorem ensure_counts (env : Env) (timeout retryDelay : Int) (name : String)
    (p : Pod) :
    (ensureRunnerUnregistration env timeout retryDelay name p).2.countP
      Effect.isPatch = 0 ∧
    (ensureRunnerUnregistration env timeout retryDelay name p).2.countP
      Effect.isRemove ≤ 1 ∧
    (ensureRunnerUnregistration env timeout retryDelay name p).2.countP
      Effect.isList ≤ 2 := by
  have core : ∀ rid,
      (ensureWithID env timeout retryDelay name (some p) rid).2.countP
        Effect.isPatch = 0 ∧
      (ensureWithID env timeout retryDelay name (some p) rid).2.countP
        Effect.isRemove ≤ 1 ∧
      (ensureWithID env timeout retryDelay name (some p) rid).2.countP
        Effect.isList ≤ 2 := by
    intro rid
    rcases hu : unregisterRunner env name rid with ⟨⟨ok, errU⟩, tr1⟩
    have huc := unregisterRunner_counts env name rid
    rw [hu] at huc
    simp only at huc
    obtain ⟨u1, u2, u3⟩ := huc
    cases errU with
    | some e =>
      rcases hd : decideOnUnregisterError env name (some p) e with ⟨res, tr2⟩
      have hdc := decideErr_counts env name (some p) e
      rw [hd] at hdc
      simp only at hdc
      obtain ⟨d1, d2, d3⟩ := hdc
      simp only [ensureWithID, hu, hd, List.countP_append]
      exact ⟨by omega, by omega, by omega⟩
    | none =>
      cases ok <;> simp only [ensureWithID, hu] <;>
        exact ⟨u1, by omega, by omega⟩
  rcases hg : getAnnot p AnnotationKeyRunnerID with ⟨idStr, b⟩
  cases b with
  | true =>
    cases hp : parseInt64 idStr with
    | none => simp [ensureRunnerUnregistration, hg, hp]
    | some v =>
      simp only [ensureRunnerUnregistration, hg, hp]
      exact core (some v)
  | false =>
    simp only [ensureRunnerUnregistration, hg]
    exact core none

/-- Effect counts of one `annotatePodOnce` call: at most one patch,
nothing else. -/
theorem annotate_counts (env : Env) (pod : Option Pod) (k v : String) :
    (annotatePodOnce env pod k v).2.countP Effect.isPatch ≤ 1 ∧
    (annotatePodOnce env pod k v).2.countP Effect.isRemove = 0 ∧
    (annotatePodOnce env pod k v).2.countP Effect.isList = 0 := by
  cases pod with
  | none => simp [annotatePodOnce]
  | some p =>
    rcases hg : getAnnot p k with ⟨w, b⟩
    cases b with
    | true => simp [annotatePodOnce, hg]
    | false =>
      cases hp : env.patchErr k with
      | some e =>
        simp [annotatePodOnce, hg, hp, Effect.isPatch, Effect.isRemove,
          Effect.isList, List.countP_cons, List.countP_nil]
      | none =>
        simp [annotatePodOnce, hg, hp, Effect.isPatch, Effect.isRemove,
          Effect.isList, List.countP_cons, List.countP_nil]

/-- C8 counterexample: a tick whose remove call reports not-found via the
by-name lookup returns with a registry list query in its effect trace —
an external call that is neither an annotation patch nor the removal
call, so the tick does perform external calls other than patches and the
removal. -/
theorem claim_c8_counterexample :
    tickRunnerGracefulStop
      { now := 0, parseTime := fun _ => none, formatTime := fun _ => "x",
        patchErr := fun _ => none, listRunners := Except.ok [],
        removeErr := fun _ => none }
      100 10 "r"
      (some { annotations := [("unregistration-start-timestamp", "s"),
                              ("unregistration-complete-timestamp", "c")],
              stopped := false, exitCode := none })
      = some ((some { annotations := [("unregistration-start-timestamp", "s"),
                                      ("unregistration-complete-timestamp", "c")],
                      stopped := false, exitCode := none }, none, none),
              [Effect.listCall none]) ∧
    ¬ (∀ eff ∈ [Effect.listCall none],
         eff.isPatch = true ∨ eff.isRemove = true) := by
  refine ⟨by decide, by decide⟩

/-- C8 as amended: every tick that returns performs at most two
annotation patches, at most one registry removal call, and at most two
read-only registry list queries (the by-name lookups); the trace records
no other kind of external call. (A nil-pod tick panics at line 75 before
performing any external call at all.) -/
theorem spec_c8 (env : Env) (timeout retryDelay : Int) (name : String)
    (pod : Option Pod)
    (out : (Option Pod × Option CtrlResult × Option GoError) × List Effect)
    (h : tickRunnerGracefulStop env timeout retryDelay name pod = some out) :
    out.2.countP Effect.isPatch ≤ 2 ∧
    out.2.countP Effect.isRemove ≤ 1 ∧
    out.2.countP Effect.isList ≤ 2 := by
  rcases h1 : annotatePodOnce env pod AnnotationKeyUnregistrationStartTimestamp
      (env.formatTime env.now) with ⟨⟨pod1, err1⟩, tr1⟩
  have a1 := annotate_counts env pod AnnotationKeyUnregistrationStartTimestamp
    (env.formatTime env.now)
  rw [h1] at a1
  simp only at a1
  obtain ⟨a11, a12, a13⟩ := a1
  cases err1 with
  | some e =>
    simp only [tickRunnerGracefulStop, h1, Option.some.injEq] at h
    subst h
    exact ⟨a11.trans (by omega), a12.le.trans (by omega), a13.le.trans (by omega)⟩
  | none =>
    cases pod1 with
    | none =>
      simp [tickRunnerGracefulStop, h1, ensureRunnerUnregistrationObj,
        getAnnotationObj] at h
    | some p1 =>
      rcases h2 : ensureRunnerUnregistration env timeout retryDelay name p1
        with ⟨⟨resD, err2⟩, tr2⟩
      have e2 := ensure_counts env timeout retryDelay name p1
      rw [h2] at e2
      simp only at e2
      obtain ⟨e21, e22, e23⟩ := e2
      have hobj : ensureRunnerUnregistrationObj env timeout retryDelay name (some p1)
          = some ((resD, err2), tr2) := by rw [ensureObj_some, h2]
      cases resD with
      | some r =>
        simp only [tickRunnerGracefulStop, h1, hobj, Option.some.injEq] at h
        subst h
        refine ⟨?_, ?_, ?_⟩ <;>
          · simp only [List.countP_append]
            omega
      | none =>
        rcases h3 : annotatePodOnce env (some p1)
            AnnotationKeyUnregistrationCompleteTimestamp (env.formatTime env.now)
            with ⟨⟨pod2, err3⟩, tr3⟩
        have a3 := annotate_counts env (some p1)
          AnnotationKeyUnregistrationCompleteTimestamp (env.formatTime env.now)
        rw [h3] at a3
        simp only at a3
        obtain ⟨a31, a32, a33⟩ := a3
        cases err3 with
        | some e =>
          simp only [tickRunnerGracefulStop, h1, hobj, h3, Option.some.injEq] at h
          subst h
          refine ⟨?_, ?_, ?_⟩ <;>
            · simp only [List.countP_append]
              omega
        | none =>
          simp only [tickRunnerGracefulStop, h1, hobj, h3, Option.some.injEq] at h
          subst h
          refine ⟨?_, ?_, ?_⟩ <;>
            · simp only [List.countP_append]
              omega

/-- Witness for the amended C8 at the counterexample's input: the tick
returns, and the bounds hold on its concrete one-query trace. -/
theorem spec_c8_witness :
    tickRunnerGracefulStop
      { now := 0, parseTime := fun _ => none, formatTime := fun _ => "x",
        patchErr := fun _ => none, listRunners := Except.ok [],
        removeErr := fun _ => none }
      100 10 "r"
      (some { annotations := [("unregistration-start-timestamp", "s"),
                              ("unregistration-complete-timestamp", "c")],
              stopped := false, exitCode := none })
      = some ((some { annotations := [("unregistration-start-timestamp", "s"),
                                      ("unregistration-complete-timestamp", "c")],
                      stopped := false, exitCode := none }, none, none),
              [Effect.listCall none]) ∧
    (([Effect.listCall none] : List Effect).countP Effect.isPatch ≤ 2 ∧
     ([Effect.listCall none] : List Effect).countP Effect.isRemove ≤ 1 ∧
     ([Effect.listCall none] : List Effect).countP Effect.isList ≤ 2) :=
  ⟨by decide,
   spec_c8
     { now := 0, parseTime := fun _ => none, formatTime := fun _ => "x",
       patchErr := fun _ => none, listRunners := Except.ok [],
       removeErr := fun _ => none }
     100 10 "r"
     (some { annotations := [("unregistration-start-timestamp", "s"),
                             ("unregistration-complete-timestamp", "c")],
             stopped := false, exitCode := none })
     ((some { annotations := [("unregistration-start-timestamp", "s"),
                              ("unregistration-complete-timestamp", "c")],
              stopped := false, exitCode := none }, none, none),
      [Effect.listCall none])
     (by decide)⟩

/-- Every effect of a no-error `annotatePodOnce` call is a successful
patch of its key/value. -/
theorem annotate_trace_ok (env : Env) (pod : Option Pod) (k v : String)
    (h : (annotatePodOnce env pod k v).1.2 = none) :
    ∀ eff ∈ (annotatePodOnce env pod k v).2, eff = Effect.patch k v none := by
  cases pod with
  | none => intro eff heff; simp [annotatePodOnce] at heff
  | some p =>
    rcases hg : getAnnot p k with ⟨w, b⟩
    cases b with
    | true => intro eff heff; simp [annotatePodOnce, hg] at heff
    | false =>
      cases hp : env.patchErr k with
      | some e => simp [annotatePodOnce, hg, hp] at h
      | none =>
        intro eff heff
        simp [annotatePodOnce, hg, hp] at heff
        exact heff

/-- A no-error `annotatePodOnce` call preserves the runner container's
exit-code observation (it only touches annotations). -/
theorem annotate_exit (env : Env) (pod : Option Pod) (k v : String)
    (h : (annotatePodOnce env pod k v).1.2 = none) :
    runnerContainerExitCode (annotatePodOnce env pod k v).1.1
      = runnerContainerExitCode pod := by
  cases pod with
  | none => simp [annotatePodOnce]
  | some p =>
    rcases hg : getAnnot p k with ⟨w, b⟩
    cases b with
    | true => simp [annotatePodOnce, hg]
    | false =>
      cases hp : env.patchErr k with
      | some e => simp [annotatePodOnce, hg, hp] at h
      | none =>
        simp [annotatePodOnce, hg, hp, runnerContainerExitCode, setAnnot]

/-- An error matching `errors.As` for `*ErrorResponse` is that structured
API error. -/
theorem asErrorResponse_eq (e : GoError) (status : Int)
    (h : e.asErrorResponse = some status) : e = GoError.apiError status := by
  cases e <;> simp_all [GoError.asErrorResponse]

/-- The by-name lookup records only list queries. -/
theorem getRunner_trace_list (env : Env) (name : String) :
    ∀ eff ∈ (getRunner env name).2,
      eff.isPatch = false ∧ eff.isRemove = false := by
  cases h : env.listRunners <;> intro eff heff <;>
    simp [getRunner, h] at heff <;>
    simp [heff, Effect.isPatch, Effect.isRemove]

/-- A removal call recorded by `unregisterRunner` either succeeded or
failed with exactly the error `unregisterRunner` returns. -/
theorem unregister_remove_mem (env : Env) (name : String) (rid : Option Int)
    (i : Int) (res : Option GoError)
    (h : Effect.removeCall i res ∈ (unregisterRunner env name rid).2) :
    res = none ∨ (unregisterRunner env name rid).1.2 = res := by
  cases rid with
  | some j =>
    cases hr : env.removeErr j with
    | some e =>
      have hm : Effect.removeCall i res = Effect.removeCall j (some e) := by
        simpa [unregisterRunner, removeById, hr] using h
      right
      simp [unregisterRunner, removeById, hr]
      exact (by simpa using hm.symm : _ ∧ _).2
    | none =>
      have hm : Effect.removeCall i res = Effect.removeCall j none := by
        simpa [unregisterRunner, removeById, hr] using h
      left
      exact (by simpa using hm : _ ∧ _).2
  | none =>
    rcases hg : getRunner env name with ⟨gres, tr⟩
    have hshape := getRunner_trace_list env name
    rw [hg] at hshape
    cases gres with
    | error e =>
      have hm : Effect.removeCall i res ∈ tr := by
        simpa [unregisterRunner, hg] using h
      have := (hshape _ hm).2
      simp [Effect.isRemove] at this
    | ok ro =>
      cases ro with
      | none =>
        have hm : Effect.removeCall i res ∈ tr := by
          simpa [unregisterRunner, hg] using h
        have := (hshape _ hm).2
        simp [Effect.isRemove] at this
      | some r =>
        cases hrid : r.id with
        | none =>
          have hm : Effect.removeCall i res ∈ tr := by
            simpa [unregisterRunner, hg, hrid] using h
          have := (hshape _ hm).2
          simp [Effect.isRemove] at this
        | some j =>
          cases hr : env.removeErr j with
          | some e =>
            have hm : Effect.removeCall i res ∈ tr ++ [Effect.removeCall j (some e)] := by
              simpa [unregisterRunner, hg, hrid, removeById, hr] using h
            rcases List.mem_append.mp hm with hm1 | hm1
            · have := (hshape _ hm1).2
              simp [Effect.isRemove] at this
            · right
              simp only [List.mem_singleton] at hm1
              obtain ⟨hij, hres⟩ : i = j ∧ res = some e := by simpa using hm1
              simp [unregisterRunner, hg, hrid, removeById, hr, hres]
          | none =>
            have hm : Effect.removeCall i res ∈ tr ++ [Effect.removeCall j none] := by
              simpa [unregisterRunner, hg, hrid, removeById, hr] using h
            rcases List.mem_append.mp hm with hm1 | hm1
            · have := (hshape _ hm1).2
              simp [Effect.isRemove] at this
            · left
              simp only [List.mem_singleton] at hm1
              obtain ⟨hij, hres⟩ : i = j ∧ res = none := by simpa using hm1
              exact hres

/-- The error arm records only list queries. -/
theorem decideErr_trace_list (env : Env) (name : String) (pod : Option Pod)
    (e : GoError) :
    ∀ eff ∈ (decideOnUnregisterError env name pod e).2,
      eff.isPatch = false ∧ eff.isRemove = false := by
  intro eff heff
  by_cases hrl : e.isRateLimit = true
  · simp [decideOnUnregisterError, hrl] at heff
  · cases har : e.asErrorResponse with
    | none =>
      simp [decideOnUnregisterError, hrl, har] at heff
    | some status =>
      rcases hg : getRunner env name with ⟨gres, tr⟩
      have hshape := getRunner_trace_list env name
      rw [hg] at hshape
      have hrw : (decideOnUnregisterError env name pod e).2 = tr := by
        simp only [decideOnUnregisterError, har, hg]
        rw [if_neg hrl]
        split <;> rfl
      rw [hrw] at heff
      exact hshape _ heff

/-- A removal call recorded by the post-resolution decider either
succeeded, or its error is surfaced on the error channel next to a
non-nil retry result, or it is the 422-with-exited-container failure that
the inference branch deliberately reclassifies as safe-to-delete. -/
theorem withID_remove_mem (env : Env) (timeout retryDelay : Int) (name : String)
    (pod : Option Pod) (rid : Option Int) (i : Int) (res : Option GoError)
    (h : Effect.removeCall i res ∈ (ensureWithID env timeout retryDelay name pod rid).2) :
    res = none
    ∨ ((ensureWithID env timeout retryDelay name pod rid).1.2 = res ∧
        ∃ r, (ensureWithID env timeout retryDelay name pod rid).1.1 = some r)
    ∨ (res = some (GoError.apiError 422) ∧
        (runnerContainerExitCode pod).isSome = true) := by
  rcases hu : unregisterRunner env name rid with ⟨⟨ok, errU⟩, tr1⟩
  cases errU with
  | none =>
    have hmem : Effect.removeCall i res ∈ tr1 := by
      cases ok <;> simpa [ensureWithID, hu] using h
    have hres := unregister_remove_mem env name rid i res (by rw [hu]; exact hmem)
    rcases hres with h1 | h2
    · exact Or.inl h1
    · rw [hu] at h2
      exact Or.inl h2.symm
  | some e =>
    rcases hd : decideOnUnregisterError env name pod e with ⟨dres, tr2⟩
    have hw1 : (ensureWithID env timeout retryDelay name pod rid).1 = dres := by
      simp [ensureWithID, hu, hd]
    have hh : Effect.removeCall i res ∈ tr1 ++ tr2 := by
      simpa [ensureWithID, hu, hd] using h
    rcases List.mem_append.mp hh with hmem | hmem
    · have hres := unregister_remove_mem env name rid i res (by rw [hu]; exact hmem)
      rcases hres with h1 | h2
      · exact Or.inl h1
      · rw [hu] at h2
        simp only at h2
        by_cases hrl : e.isRateLimit = true
        · have hda : dres
              = (some { requeueAfter := retryDelayOnGitHubAPIRateLimitError }, some e) := by
            have hx := hd.symm
            simp only [decideOnUnregisterError, if_pos hrl, Prod.mk.injEq] at hx
            exact hx.1
          refine Or.inr (Or.inl ?_)
          rw [hw1, hda]
          exact ⟨h2, _, rfl⟩
        · cases har : e.asErrorResponse with
          | none =>
            have hda : dres = (some { requeueAfter := 0 }, some e) := by
              have hx := hd.symm
              simp only [decideOnUnregisterError, if_neg hrl, har, Prod.mk.injEq] at hx
              exact hx.1
            refine Or.inr (Or.inl ?_)
            rw [hw1, hda]
            exact ⟨h2, _, rfl⟩
          | some status =>
            rcases hgr : getRunner env name with ⟨gres, trg⟩
            by_cases hc : status = 422 ∧ (runnerContainerExitCode pod).isSome = true
            · refine Or.inr (Or.inr ?_)
              have he : e = GoError.apiError status := asErrorResponse_eq e status har
              refine ⟨?_, hc.2⟩
              rw [← h2, he, hc.1]
            · have hda : dres = (some { requeueAfter := 0 }, some e) := by
                have hx := hd.symm
                simp only [decideOnUnregisterError, if_neg hrl, har, hgr,
                  if_neg hc, Prod.mk.injEq] at hx
                exact hx.1
              refine Or.inr (Or.inl ?_)
              rw [hw1, hda]
              exact ⟨h2, _, rfl⟩
    · have := (decideErr_trace_list env name pod e (Effect.removeCall i res)
        (by rw [hd]; exact hmem)).2
      simp [Effect.isRemove] at this

/-- Lift of `withID_remove_mem` through the runner-id resolution head of
`ensureRunnerUnregistration` (the parse-failure branch has an empty
trace). -/
theorem ensure_remove_mem (env : Env) (timeout retryDelay : Int) (name : String)
    (p : Pod) (i : Int) (res : Option GoError)
    (h : Effect.removeCall i res
      ∈ (ensureRunnerUnregistration env timeout retryDelay name p).2) :
    res = none
    ∨ ((ensureRunnerUnregistration env timeout retryDelay name p).1.2 = res ∧
        ∃ r, (ensureRunnerUnregistration env timeout retryDelay name p).1.1 = some r)
    ∨ (res = some (GoError.apiError 422) ∧
        (runnerContainerExitCode (some p)).isSome = true) := by
  rcases hg : getAnnot p AnnotationKeyRunnerID with ⟨idStr, b⟩
  cases b with
  | true =>
    cases hp : parseInt64 idStr with
    | none =>
      simp [ensureRunnerUnregistration, hg, hp] at h
    | some v =>
      have hrw : ensureRunnerUnregistration env timeout retryDelay name p
          = ensureWithID env timeout retryDelay name (some p) (some v) := by
        simp [ensureRunnerUnregistration, hg, hp]
      rw [hrw] at h ⊢
      exact withID_remove_mem env timeout retryDelay name (some p) (some v) i res h
  | false =>
    have hrw : ensureRunnerUnregistration env timeout retryDelay name p
        = ensureWithID env timeout retryDelay name (some p) none := by
      simp [ensureRunnerUnregistration, hg]
    rw [hrw] at h ⊢
    exact withID_remove_mem env timeout retryDelay name (some p) none i res h

/-- C9 counterexample: a tick that returns with both output channels
clear (safe to delete, no error) although its trace contains a failed
removal call and a failed best-effort list query — both errors were
encountered and neither is returned, contradicting the claim that no
branch returns success while dropping an error produced during its
evaluation. -/
theorem claim_c9_counterexample :
    tickRunnerGracefulStop
      { now := 0, parseTime := fun _ => none, formatTime := fun _ => "x",
        patchErr := fun _ => none,
        listRunners := Except.error (GoError.other "boom"),
        removeErr := fun _ => some (GoError.apiError 422) }
      100 10 "r"
      (some { annotations := [("runner-id", "5"),
                              ("unregistration-start-timestamp", "s"),
                              ("unregistration-complete-timestamp", "c")],
              stopped := false, exitCode := some 1 })
      = some ((some { annotations := [("runner-id", "5"),
                              ("unregistration-start-timestamp", "s"),
                              ("unregistration-complete-timestamp", "c")],
                              stopped := false, exitCode := some 1 }, none, none),
              [Effect.removeCall 5 (some (GoError.apiError 422)),
               Effect.listCall (some (GoError.other "boom"))]) ∧
    Effect.removeCall 5 (some (GoError.apiError 422))
      ∈ [Effect.removeCall 5 (some (GoError.apiError 422)),
         Effect.listCall (some (GoError.other "boom"))] ∧
    (some (GoError.apiError 422) : Option GoError) ≠ none := by
  refine ⟨by decide, by decide, by decide⟩

/-- C9 as amended: whenever the tick returns with its error channel
clear, every annotation patch in its trace succeeded and every removal
call either succeeded or failed with the structured 422 API error while
the runner container had already exited — the one failure the inference
branch deliberately reclassifies as safe-to-delete; best-effort list
queries may fail silently. -/
theorem spec_c9 (env : Env) (timeout retryDelay : Int) (name : String)
    (pod : Option Pod)
    (out : (Option Pod × Option CtrlResult × Option GoError) × List Effect)
    (h : tickRunnerGracefulStop env timeout retryDelay name pod = some out)
    (herr : out.1.2.2 = none) :
    traceOkExcept422 pod out.2 = true := by
  unfold traceOkExcept422
  rw [List.all_eq_true]
  intro eff heff
  rcases h1 : annotatePodOnce env pod AnnotationKeyUnregistrationStartTimestamp
      (env.formatTime env.now) with ⟨⟨pod1, err1⟩, tr1⟩
  cases err1 with
  | some e =>
    simp only [tickRunnerGracefulStop, h1, Option.some.injEq] at h
    subst h
    simp at herr
  | none =>
    have hann1 : (annotatePodOnce env pod
        AnnotationKeyUnregistrationStartTimestamp (env.formatTime env.now)).1.2
        = none := by rw [h1]
    have hexit : runnerContainerExitCode pod1 = runnerContainerExitCode pod := by
      have hx := annotate_exit env pod AnnotationKeyUnregistrationStartTimestamp
        (env.formatTime env.now) hann1
      rw [h1] at hx
      exact hx
    cases pod1 with
    | none =>
      simp [tickRunnerGracefulStop, h1, ensureRunnerUnregistrationObj,
        getAnnotationObj] at h
    | some p1 =>
      rcases h2 : ensureRunnerUnregistration env timeout retryDelay name p1
        with ⟨⟨resD, err2⟩, tr2⟩
      have hobj : ensureRunnerUnregistrationObj env timeout retryDelay name (some p1)
          = some ((resD, err2), tr2) := by rw [ensureObj_some, h2]
      cases resD with
      | some r =>
        simp only [tickRunnerGracefulStop, h1, hobj, Option.some.injEq] at h
        subst h
        have herr2 : err2 = none := herr
        rcases List.mem_append.mp (show eff ∈ tr1 ++ tr2 from heff) with hm | hm
        · have hpe := annotate_trace_ok env pod _ _ hann1 eff (by rw [h1]; exact hm)
          subst hpe
          simp
        · cases eff with
          | patch k v r0 =>
            have h0 := (ensure_counts env timeout retryDelay name p1).1
            rw [h2] at h0
            have hnp := List.countP_eq_zero.mp h0 _ hm
            simp [Effect.isPatch] at hnp
          | removeCall j r0 =>
            have hr := ensure_remove_mem env timeout retryDelay name p1 j r0
              (by rw [h2]; exact hm)
            rw [h2] at hr
            simp only at hr
            rcases hr with h1' | ⟨h2', _⟩ | ⟨h3', h4'⟩
            · subst h1'
              simp
            · have hr0 : r0 = none := by rw [← h2', herr2]
              subst hr0
              simp
            · subst h3'
              rw [hexit] at h4'
              simp [h4']
          | listCall r0 => simp
      | none =>
        rcases h3 : annotatePodOnce env (some p1)
            AnnotationKeyUnregistrationCompleteTimestamp (env.formatTime env.now)
            with ⟨⟨pod2, err3⟩, tr3⟩
        cases err3 with
        | some e =>
          simp only [tickRunnerGracefulStop, h1, hobj, h3, Option.some.injEq] at h
          subst h
          simp at herr
        | none =>
          have hann3 : (annotatePodOnce env (some p1)
              AnnotationKeyUnregistrationCompleteTimestamp
              (env.formatTime env.now)).1.2 = none := by rw [h3]
          simp only [tickRunnerGracefulStop, h1, hobj, h3, Option.some.injEq] at h
          subst h
          rcases List.mem_append.mp (show eff ∈ tr1 ++ tr2 ++ tr3 from heff)
            with hm12 | hm3
          · rcases List.mem_append.mp hm12 with hm | hm
            · have hpe := annotate_trace_ok env pod _ _ hann1 eff
                (by rw [h1]; exact hm)
              subst hpe
              simp
            · cases eff with
              | patch k v r0 =>
                have h0 := (ensure_counts env timeout retryDelay name p1).1
                rw [h2] at h0
                have hnp := List.countP_eq_zero.mp h0 _ hm
                simp [Effect.isPatch] at hnp
              | removeCall j r0 =>
                have hr := ensure_remove_mem env timeout retryDelay name p1 j r0
                  (by rw [h2]; exact hm)
                rw [h2] at hr
                simp only at hr
                rcases hr with h1' | ⟨_, r', hr'⟩ | ⟨h3', h4'⟩
                · subst h1'
                  simp
                · exact absurd hr' (by simp)
                · subst h3'
                  rw [hexit] at h4'
                  simp [h4']
              | listCall r0 => simp
          · have hpe := annotate_trace_ok env (some p1) _ _ hann3 eff
              (by rw [h3]; exact hm3)
            subst hpe
            simp

/-- Witness for the amended C9 at the counterexample's input: the tick
returns with a clear error channel, and the trace discipline holds — the
failed removal is the 422-with-exited-container case. -/
theorem spec_c9_witness :
    tickRunnerGracefulStop
      { now := 0, parseTime := fun _ => none, formatTime := fun _ => "x",
        patchErr := fun _ => none,
        listRunners := Except.error (GoError.other "boom"),
        removeErr := fun _ => some (GoError.apiError 422) }
      100 10 "r"
      (some { annotations := [("runner-id", "5"),
                              ("unregistration-start-timestamp", "s"),
                              ("unregistration-complete-timestamp", "c")],
              stopped := false, exitCode := some 1 })
      = some ((some { annotations := [("runner-id", "5"),
                              ("unregistration-start-timestamp", "s"),
                              ("unregistration-complete-timestamp", "c")],
                              stopped := false, exitCode := some 1 }, none, none),
              [Effect.removeCall 5 (some (GoError.apiError 422)),
               Effect.listCall (some (GoError.other "boom"))]) ∧
    traceOkExcept422
      (some { annotations := [("runner-id", "5"),
                              ("unregistration-start-timestamp", "s"),
                              ("unregistration-complete-timestamp", "c")],
              stopped := false, exitCode := some 1 })
      [Effect.removeCall 5 (some (GoError.apiError 422)),
       Effect.listCall (some (GoError.other "boom"))] = true :=
  ⟨by decide,
   spec_c9
     { now := 0, parseTime := fun _ => none, formatTime := fun _ => "x",
        patchErr := fun _ => none,
        listRunners := Except.error (GoError.other "boom"),
        removeErr := fun _ => some (GoError.apiError 422) }
     100 10 "r"
     (some { annotations := [("runner-id", "5"),
                              ("unregistration-start-timestamp", "s"),
                              ("unregistration-complete-timestamp", "c")],
              stopped := false, exitCode := some 1 })
     ((some { annotations := [("runner-id", "5"),
                              ("unregistration-start-timestamp", "s"),
                              ("unregistration-complete-timestamp", "c")],
                              stopped := false, exitCode := some 1 }, none, none),
              [Effect.removeCall 5 (some (GoError.apiError 422)),
               Effect.listCall (some (GoError.other "boom"))])
     (by decide) (by decide)⟩

end ARC
